import Mathlib

/-!
Shallow embedding of `cuda_setup.py` (the cuhnsw CUDA build shim) and proofs
about its toolkit locator, compiler dispatchers and extension-build hook.

The Python module is packaging glue over `distutils`: it locates a CUDA
toolkit (environment variables, then `PATH` search), assembles `nvcc`
flag lists, and wraps the platform compiler drivers so that `.cu` sources
are compiled by `nvcc`.  External collaborators (the parent compiler
drivers, `_setup_compile`, `spawn`, the filesystem and the process
environment) are modelled as explicit function parameters; the code of
`cuda_setup.py` itself is translated line by line.
-/

namespace CudaSetup

/-- Module-level constant `HALF_PRECISION = False` (cuda_setup.py line 18). -/
def HALF_PRECISION : Bool := false

/-- The result of splitting a string at every occurrence of a character:
index of the LAST occurrence of `c` in the list, if any. -/
def lastIndexOf (c : Char) : List Char → Option Nat
  | [] => none
  | x :: xs =>
    match lastIndexOf c xs with
    | some i => some (i + 1)
    | none => if x = c then some 0 else none

/-- Model of `os.path.splitext(p)[1]`: the extension of the basename of `p`,
including the leading dot; leading dots of the basename never start an
extension (so `splitextExt ".cu" = ""` but `splitextExt "a.cu" = ".cu"`).
Modelled for the posix separator. -/
def splitextExt (p : String) : String :=
  let cs := p.data
  let base :=
    match lastIndexOf '/' cs with
    | some i => cs.drop (i + 1)
    | none => cs
  match lastIndexOf '.' base with
  | none => ""
  | some d =>
    if (base.take d).any (fun ch => ch ≠ '.') then String.mk (base.drop d)
    else ""

/-- Model of `os.path.join a b` for a relative second component (posix). -/
def pathJoin (a b : String) : String := a ++ "/" ++ b

/-- Model of `os.pathsep` on the posix profile (the claims never depend on
the Windows value `;`). -/
def pathsepChar : Char := ':'

/-- Split a character list at every occurrence of `c` (the model of
`path.split(os.pathsep)`; Python's `str.split` on a one-character
separator). -/
def splitOnChar (c : Char) : List Char → List (List Char)
  | [] => [[]]
  | x :: xs =>
    match splitOnChar c xs with
    | [] => if x = c then [[], []] else [[x]]
    | y :: ys => if x = c then [] :: y :: ys else (x :: y) :: ys

/-- `path.split(os.pathsep)` as a list of strings. -/
def splitPath (path : String) : List String :=
  (splitOnChar pathsepChar path.data).map (fun l => String.mk l)

/-- Model of `os.path.abspath` on the already-absolute candidate paths the
locator produces: the identity. -/
def abspath (p : String) : String := p

/-- Model of `os.path.dirname` (posix rules: drop everything from the last
separator on, then strip trailing separators unless the result is all
separators). -/
def dirname (p : String) : String :=
  match lastIndexOf '/' p.data with
  | none => ""
  | some i =>
    let head := p.data.take (i + 1)
    if head.all (fun ch => ch = '/') then String.mk head
    else String.mk ((head.reverse.dropWhile (fun ch => ch = '/')).reverse)

/-- Does the first list start the second one? (helper for `strContains`). -/
def startsList : List Char → List Char → Bool
  | [], _ => true
  | _ :: _, [] => false
  | a :: as, b :: bs => a = b && startsList as bs

/-- Substring containment on character lists (helper for `strContains`). -/
def containsList (n : List Char) : List Char → Bool
  | [] => n.isEmpty
  | c :: cs => startsList n (c :: cs) || containsList n cs

/-- `"needle" in hay` on Python strings: substring containment. -/
def strContains (needle hay : String) : Bool :=
  containsList needle.data hay.data

/-- The process environment, modelled as an association list; `get?` is
`os.environ.get` (first binding wins, as in a finite map). -/
structure Env where
  vars : List (String × String)

/-- Environment lookup: `name in os.environ` / `os.environ[name]`. -/
def Env.get? (e : Env) (name : String) : Option String :=
  (e.vars.find? (fun kv => kv.1 == name)).map (fun kv => kv.2)

/-- The `for _dir in path.split(os.pathsep)` loop of `find_in_path`. -/
def find_in_path_go (name : String) (fs : String → Bool) :
    List String → Option String
  | [] => none
  | d :: rest =>
    let binpath := pathJoin d name
    if fs binpath then some (abspath binpath) else find_in_path_go name fs rest

/-- `find_in_path(name, path)` (cuda_setup.py lines 20-28): split `path` on
the path separator, and return the absolute path of the first directory
entry whose join with `name` exists on the filesystem `fs`. -/
def find_in_path (name : String) (path : String) (fs : String → Bool) :
    Option String :=
  find_in_path_go name fs (splitPath path)

/-- The warnings `logging.warning` can emit inside `locate_cuda`. -/
inductive LogWarning
  | nvccNotInPath
  | missingPath (key : String) (val : String)
deriving DecidableEq

/-- A located toolkit configuration: the `cudaconfig` dict of
`locate_cuda` plus its `post_args` entry. -/
structure CudaConfig where
  home : String
  nvcc : String
  includeDir : String
  lib64 : String
  post_args : List String
deriving DecidableEq

/-- `nvcc_bin` selection (cuda_setup.py lines 41-43): `nvcc.exe` when
`sys.platform.startswith("win")`, else `nvcc`. -/
def nvccBinName (platform : String) : String :=
  if startsList "win".data platform.data then "nvcc.exe" else "nvcc"

/-- The environment-variable scan and `PATH` fallback of `locate_cuda`
(cuda_setup.py lines 45-62): the first of `CUDA_PATH`, `CUDAHOME`,
`CUDA_HOME` present in the environment gives `home` (with
`nvcc = home/bin/<nvcc_bin>`); if none is present, `nvcc` is searched in
`PATH` and `home` is its grandparent directory; `none` models the
warn-and-return-None path.  The Python `os.environ['PATH']` lookup is
modelled as total with default `""` (every claim concerns environments
where `PATH` is defined). -/
def findHome (platform : String) (env : Env) (fs : String → Bool) :
    Option (String × String) :=
  let nvcc_bin := nvccBinName platform
  match ["CUDA_PATH", "CUDAHOME", "CUDA_HOME"].findSome?
      (fun n => (env.get? n).map
        (fun home => (home, pathJoin (pathJoin home "bin") nvcc_bin))) with
  | some hn => some hn
  | none =>
    match find_in_path nvcc_bin ((env.get? "PATH").getD "") fs with
    | none => none
    | some nvcc => some (dirname (dirname nvcc), nvcc)

/-- The `post_args` flag list of `locate_cuda` (cuda_setup.py lines 68-91):
the base architecture/codegen flags, the half-precision filter dropping
every flag containing `"52"`, then the platform branch on
`sys.platform == "win32"`. -/
def build_post_args (platform : String) (hp : Bool) : List String :=
  let base : List String := [
    "-arch=sm_52",
    "-gencode=arch=compute_52,code=sm_52",
    "-gencode=arch=compute_60,code=sm_60",
    "-gencode=arch=compute_61,code=sm_61",
    "-gencode=arch=compute_70,code=sm_70",
    "-gencode=arch=compute_75,code=sm_75",
    "-gencode=arch=compute_80,code=sm_80",
    "-gencode=arch=compute_86,code=sm_86",
    "-gencode=arch=compute_86,code=compute_86",
    "--ptxas-options=-v", "-O2"]
  let base := if hp then base.filter (fun flag => !(strContains "52" flag)) else base
  if platform = "win32" then
    base ++ ["-Xcompiler", "/MD", "-std=c++14", "-Xcompiler", "/openmp"]
      ++ (if hp then ["-Xcompiler", "/D HALF_PRECISION"] else [])
  else
    base ++ ["-c", "--compiler-options", "\x27-fPIC\x27",
             "--compiler-options", "\x27-std=c++14\x27"]
      ++ (if hp then ["--compiler-options", "\x27-D HALF_PRECISION\x27"] else [])

/-- The `cudaconfig` value of `locate_cuda` as of the existence check
(cuda_setup.py lines 64-91): derived `include` and `lib64` directories,
with `lib64` rebased to `lib/x64` on `win32`, and the assembled
`post_args`. -/
def mkConfig (platform home nvcc : String) (hp : Bool) : CudaConfig :=
  { home := home
    nvcc := nvcc
    includeDir := pathJoin home "include"
    lib64 := if platform = "win32" then pathJoin (pathJoin home "lib") "x64"
             else pathJoin home "lib64"
    post_args := build_post_args platform hp }

/-- The key/value pairs `cudaconfig.items()` iterates over during the
existence check (dict insertion order; `post_args` is added only after
the check). -/
def configPaths (c : CudaConfig) : List (String × String) :=
  [("home", c.home), ("nvcc", c.nvcc),
   ("include", c.includeDir), ("lib64", c.lib64)]

/-- The `for k, val in cudaconfig.items(): if not os.path.exists(val)` loop
(cuda_setup.py lines 92-95): the warning for the first missing path, or
`none` when every path exists. -/
def checkPaths (fs : String → Bool) : List (String × String) → Option LogWarning
  | [] => none
  | (k, v) :: rest =>
    if fs v then checkPaths fs rest else some (LogWarning.missingPath k v)

/-- `locate_cuda()` (cuda_setup.py lines 31-98), over an explicit platform
string, environment, filesystem and half-precision flag; returns the
located config (or `none`) together with the list of warnings logged. -/
def locate_cuda (platform : String) (env : Env) (fs : String → Bool)
    (hp : Bool) : Option CudaConfig × List LogWarning :=
  match findHome platform env fs with
  | none => (none, [LogWarning.nvccNotInPath])
  | some (home, nvcc) =>
    match checkPaths fs (configPaths (mkConfig platform home nvcc hp)) with
    | some w => (none, [w])
    | none => (some (mkConfig platform home nvcc hp), [])

/-- `distutils.unixccompiler.UnixCCompiler.src_extensions`, the constant of
the external `distutils` library the dispatchers copy. -/
def unixccompiler_src_extensions : List String :=
  [".c", ".C", ".cc", ".cxx", ".cpp", ".m"]

/-- `distutils.msvccompiler.MSVCCompiler.src_extensions`, the constant of
the external `distutils` library (c + cpp + rc + mc extensions). -/
def msvccompiler_src_extensions : List String :=
  [".c", ".cc", ".cpp", ".cxx", ".rc", ".mc"]

/-- `_UnixCCompiler.src_extensions` (cuda_setup.py lines 104-105): the Unix
driver's list with `.cu` appended. -/
def _UnixCCompiler_src_extensions : List String :=
  unixccompiler_src_extensions ++ [".cu"]

/-- `_MSVCCompiler._cu_extensions` (cuda_setup.py line 128). -/
def _cu_extensions : List String := [".cu"]

/-- `_MSVCCompiler.src_extensions` (cuda_setup.py lines 130-131): built
from the UNIX driver's list, extended with `_cu_extensions`. -/
def _MSVCCompiler_src_extensions : List String :=
  unixccompiler_src_extensions ++ _cu_extensions

/-- The mutable state of the Unix compiler driver the dispatcher touches:
its `compiler_so` executable field. -/
structure UnixState where
  compiler_so : String
deriving DecidableEq

/-- The arguments of one `_compile(obj, src, ext, cc_args, extra_postargs,
pp_opts)` call. -/
structure UnixCompileArgs where
  obj : String
  src : String
  ext : String
  cc_args : List String
  extra_postargs : List String
  pp_opts : List String

/-- `_UnixCCompiler._compile` (cuda_setup.py lines 107-124).  The parent
`unixccompiler.UnixCCompiler._compile` is an external collaborator,
modelled as a function `parent` from driver state and arguments to a
result (`Except.error` models a raised exception) and a possibly updated
state.  Returns the parent's result, the final driver state, and the
trace of delegations to the parent (state and arguments at the call).
For a non-`.cu` source the call is the parent's, unchanged; for a `.cu`
source `compiler_so` is set to the located `nvcc`, the caller's
`extra_postargs` are replaced by the toolkit's `post_args`, and the
`finally` block restores `compiler_so` on every exit path. -/
def unix_compile (cuda : CudaConfig)
    (parent : UnixState → UnixCompileArgs → Except String Unit × UnixState)
    (st : UnixState) (a : UnixCompileArgs) :
    (Except String Unit × UnixState) × List (UnixState × UnixCompileArgs) :=
  if splitextExt a.src == ".cu" then
    let saved := st.compiler_so
    let st₁ : UnixState := { compiler_so := cuda.nvcc }
    let a₁ : UnixCompileArgs := { a with extra_postargs := cuda.post_args }
    let r := parent st₁ a₁
    ((r.1, { compiler_so := saved }), [(st₁, a₁)])
  else
    (parent st a, [(st, a)])

/-- A `CompileError` raised by the Windows dispatcher, carrying the string
of the underlying `DistutilsExecError`. -/
structure CompileError where
  msg : String
deriving DecidableEq

/-- One recorded `self.spawn` invocation of `_compile_cu`: the command line
together with the source and object it compiles. -/
structure SpawnCall where
  cmd : List String
  src : String
  obj : String

/-- The nvcc command line `[compiler_so] + cc_args + [src, '-o', obj] +
post_args` (cuda_setup.py line 151). -/
def cuCommand (nvcc : String) (cc_args : List String) (src obj : String)
    (post_args : List String) : List String :=
  nvcc :: (cc_args ++ [src, "-o", obj] ++ post_args)

/-- The `for obj in objects` loop of `_compile_cu` (cuda_setup.py lines
145-153): objects missing from the `_build` map are skipped (`KeyError →
continue`); otherwise `nvcc` is spawned, and a `DistutilsExecError`
(modelled as `spawn` returning `Except.error`) is re-raised as a
`CompileError` carrying its string.  Returns the loop's outcome and the
trace of spawns performed. -/
def compile_cu_go (nvcc : String) (cc_args post_args : List String)
    (spawn : List String → Except String Unit)
    (build : String → Option String) :
    List String → Except CompileError Unit × List SpawnCall
  | [] => (Except.ok (), [])
  | obj :: rest =>
    match build obj with
    | none => compile_cu_go nvcc cc_args post_args spawn build rest
    | some src =>
      match spawn (cuCommand nvcc cc_args src obj post_args) with
      | Except.error e =>
        (Except.error { msg := e },
         [{ cmd := cuCommand nvcc cc_args src obj post_args,
            src := src, obj := obj }])
      | Except.ok _ =>
        ((compile_cu_go nvcc cc_args post_args spawn build rest).1,
         { cmd := cuCommand nvcc cc_args src obj post_args,
           src := src, obj := obj }
           :: (compile_cu_go nvcc cc_args post_args spawn build rest).2)

/-- `_MSVCCompiler._compile_cu` after `_setup_compile` (cuda_setup.py lines
133-155): run the loop over `objects` and, on success, `return objects`.
The external `_setup_compile` outputs (`objects` and the `_build` map) are
parameters. -/
def compile_cu (nvcc : String) (cc_args post_args : List String)
    (spawn : List String → Except String Unit)
    (build : String → Option String) (objects : List String) :
    Except CompileError (List String) × List SpawnCall :=
  match compile_cu_go nvcc cc_args post_args spawn build objects with
  | (Except.error ce, tr) => (Except.error ce, tr)
  | (Except.ok _, tr) => (Except.ok objects, tr)

/-- The source-partition loop of `_MSVCCompiler.compile` (cuda_setup.py
lines 159-165): `(cu_sources, other_sources)`, each in input order. -/
def partition_cu : List String → List String × List String
  | [] => ([], [])
  | s :: rest =>
    let r := partition_cu rest
    if splitextExt s == ".cu" then (s :: r.1, r.2) else (r.1, s :: r.2)

/-- `_MSVCCompiler.compile` (cuda_setup.py lines 157-175): partition the
sources, compile the non-`.cu` ones with the parent MSVC driver
(external collaborator `parent`), compile the `.cu` ones through
`_compile_cu` (with the external `_setup_compile` modelled by `setup`),
and return `other_objects + cu_objects`. -/
def msvc_compile (parent : List String → List String)
    (setup : List String → List String × (String → Option String))
    (nvcc : String) (cc_args post_args : List String)
    (spawn : List String → Except String Unit)
    (sources : List String) :
    Except CompileError (List String) × List SpawnCall :=
  let parts := partition_cu sources
  let other_objects := parent parts.2
  let su := setup parts.1
  match compile_cu nvcc cc_args post_args spawn su.2 su.1 with
  | (Except.error ce, tr) => (Except.error ce, tr)
  | (Except.ok cu_objects, tr) => (Except.ok (other_objects ++ cu_objects), tr)

/-- The `BUILDEXT` binding (cuda_setup.py line 205): which `build_ext`
class the module exports. -/
inductive BuildExtChoice
  | cudaBuildExt
  | setuptoolsBuildExt
deriving DecidableEq

/-- The module-level bindings after import. -/
structure ModuleState where
  cuda : Option CudaConfig
  buildext : BuildExtChoice
deriving DecidableEq

/-- Module import time (cuda_setup.py lines 203-205):
`CUDA = locate_cuda()`, then `assert CUDA is not None` — which raises
`AssertionError` when the locator returned `None`, so the
`BUILDEXT = CudaBuildExt if CUDA else setuptools_build_ext` line only
ever runs with a truthy (non-`None`, non-empty dict) `CUDA`. -/
def module_init (platform : String) (env : Env) (fs : String → Bool)
    (hp : Bool) : Except String ModuleState :=
  match (locate_cuda platform env fs hp).1 with
  | none => Except.error "AssertionError: CUDA is not None"
  | some c => Except.ok { cuda := some c, buildext := BuildExtChoice.cudaBuildExt }

/-! Concrete scenarios used by witnesses and counterexamples. -/

/-- An environment that names a toolkit root through `CUDA_PATH`. -/
def env0 : Env := ⟨[("CUDA_PATH", "/usr/local/cuda"), ("PATH", "/usr/bin")]⟩

/-- A filesystem on which exactly the four toolkit paths of `env0` exist. -/
def fs0 : String → Bool := fun s =>
  ["/usr/local/cuda", "/usr/local/cuda/bin/nvcc",
   "/usr/local/cuda/include", "/usr/local/cuda/lib64"].contains s

/-- The config `locate_cuda` produces from `env0`/`fs0` with half precision
off. -/
def cfg0 : CudaConfig :=
  mkConfig "linux" "/usr/local/cuda" "/usr/local/cuda/bin/nvcc" false

/-- An environment with none of the three CUDA variables set. -/
def envNoCuda : Env := ⟨[("PATH", "/usr/bin")]⟩

/-- A Windows-profile environment rooting the toolkit at `/cuda`. -/
def envW : Env := ⟨[("CUDA_PATH", "/cuda"), ("PATH", "")]⟩

/-- A filesystem on which exactly the four Windows toolkit paths exist
(the library directory is `lib/x64` there). -/
def fsW : String → Bool := fun s =>
  ["/cuda", "/cuda/bin/nvcc.exe", "/cuda/include", "/cuda/lib/x64"].contains s

/-- The config `locate_cuda` produces from `envW`/`fsW` with half
precision off. -/
def cfgW : CudaConfig := mkConfig "win32" "/cuda" "/cuda/bin/nvcc.exe" false

/-- A filesystem like `fs0` but with the include directory missing. -/
def fsNoInclude : String → Bool := fun s =>
  ["/usr/local/cuda", "/usr/local/cuda/bin/nvcc",
   "/usr/local/cuda/lib64"].contains s

/-! Helper lemmas. -/

/-- Every successfully located config is `mkConfig` of the home/nvcc pair
`findHome` produced. -/
theorem locate_some_mk (p : String) (env : Env) (fs : String → Bool)
    (hp : Bool) (c : CudaConfig)
    (h : (locate_cuda p env fs hp).1 = some c) :
    ∃ home nvcc, findHome p env fs = some (home, nvcc) ∧
      c = mkConfig p home nvcc hp ∧
      checkPaths fs (configPaths c) = none := by
  unfold locate_cuda at h
  split at h
  · simp at h
  · rename_i home nvcc heq
    split at h
    · simp at h
    · rename_i hchk
      simp at h
      exact ⟨home, nvcc, heq, h.symm, h ▸ hchk⟩

/-- With half precision on, no assembled flag contains `"52"`. -/
theorem build_post_args_no52 (p : String) :
    (build_post_args p true).all (fun f => !(strContains "52" f)) = true := by
  by_cases hw : p = "win32"
  · subst hw; decide
  · unfold build_post_args
    rw [if_neg hw]
    decide

/-- With half precision off, both compute-capability-5.2 flags are in the
assembled flag list. -/
theorem mem_build_post_args_52 (p : String) :
    "-arch=sm_52" ∈ build_post_args p false ∧
    "-gencode=arch=compute_52,code=sm_52" ∈ build_post_args p false := by
  by_cases hw : p = "win32"
  · subst hw; decide
  · unfold build_post_args
    rw [if_neg hw]
    decide

/-! Claim theorems. -/

/-- Claim C10: the Windows-variant dispatcher's recognized source-extension
list equals the UNIX compiler driver's extension list with `.cu` appended,
and differs from the MSVC driver's own list with `.cu` appended (it keeps
`.m` and lacks `.rc`). -/
theorem msvc_extensions_from_unix_list :
    _MSVCCompiler_src_extensions = unixccompiler_src_extensions ++ [".cu"] ∧
    _MSVCCompiler_src_extensions ≠ msvccompiler_src_extensions ++ [".cu"] ∧
    ".m" ∈ _MSVCCompiler_src_extensions ∧
    ".rc" ∉ _MSVCCompiler_src_extensions := by
  refine ⟨rfl, ?_, ?_, ?_⟩ <;> decide

/-- Claim C2 fails on the code as written: when the locator returns Not
Found (no CUDA environment variable, no `nvcc` on `PATH`, nothing on the
filesystem), module import does not proceed — the module-level
`assert CUDA is not None` raises, so the Extension-Build Hook is never
reached.  The graceful fallback `BUILDEXT = ... if CUDA else
setuptools_build_ext` exists in the source but is unreachable. -/
theorem module_import_asserts_on_not_found :
    (locate_cuda "linux" envNoCuda (fun _ => false) HALF_PRECISION).1 = none ∧
    module_init "linux" envNoCuda (fun _ => false) HALF_PRECISION =
      Except.error "AssertionError: CUDA is not None" :=
  ⟨rfl, rfl⟩

/-- Claim C3 as stated is false at a concrete located config: the module
constant `HALF_PRECISION` is `false`, yet the located `post_args` list
contains `-arch=sm_52`, a flag referencing `"52"` — the code drops the
5.2 flags when half precision is ENABLED, not when it is disabled. -/
theorem half_precision_flag_counterexample :
    HALF_PRECISION = false ∧
    (locate_cuda "linux" env0 fs0 HALF_PRECISION).1 = some cfg0 ∧
    "-arch=sm_52" ∈ cfg0.post_args ∧
    strContains "52" "-arch=sm_52" = true := by
  refine ⟨rfl, rfl, ?_, rfl⟩
  decide

/-- Claim C3 amended: with half precision ENABLED the located
`extraCompilerArgs` contains no flag referencing `"52"`, and with half
precision DISABLED the `sm_52`/`compute_52` architecture flags are
present. -/
theorem half_precision_flag_filter (p : String) (env : Env)
    (fs : String → Bool) :
    (∀ c, (locate_cuda p env fs true).1 = some c →
      ∀ f ∈ c.post_args, strContains "52" f = false)
    ∧ (∀ c, (locate_cuda p env fs false).1 = some c →
      "-arch=sm_52" ∈ c.post_args ∧
      "-gencode=arch=compute_52,code=sm_52" ∈ c.post_args) := by
  constructor
  · intro c hc f hf
    obtain ⟨home, nvcc, hfh, rfl, -⟩ := locate_some_mk p env fs true c hc
    have hall := build_post_args_no52 p
    rw [List.all_eq_true] at hall
    have h2 := hall f (by simpa [mkConfig] using hf)
    simpa using h2
  · intro c hc
    obtain ⟨home, nvcc, hfh, rfl, -⟩ := locate_some_mk p env fs false c hc
    simpa [mkConfig] using mem_build_post_args_52 p

/-- Witness for `half_precision_flag_filter`: at the concrete scenario
`env0`/`fs0`, half precision on filters the `sm_60` flag's companion list
correctly (no `"52"` in the first remaining flag) and half precision off
keeps `-arch=sm_52`. -/
theorem half_precision_flag_filter_witness :
    strContains "52" "-gencode=arch=compute_60,code=sm_60" = false ∧
    "-arch=sm_52" ∈ cfg0.post_args := by
  constructor
  · exact (half_precision_flag_filter "linux" env0 fs0).1
      (mkConfig "linux" "/usr/local/cuda" "/usr/local/cuda/bin/nvcc" true)
      (by decide) "-gencode=arch=compute_60,code=sm_60" (by decide)
  · exact ((half_precision_flag_filter "linux" env0 fs0).2 cfg0 (by decide)).1

/-- The existence loop returns no warning exactly when every listed path
exists. -/
theorem checkPaths_none_iff (fs : String → Bool)
    (l : List (String × String)) :
    checkPaths fs l = none ↔ ∀ kv ∈ l, fs kv.2 = true := by
  induction l with
  | nil => simp [checkPaths]
  | cons kv rest ih =>
    obtain ⟨k, v⟩ := kv
    by_cases hv : fs v = true
    · simp [checkPaths, hv, ih]
    · simp [checkPaths, hv]

/-- Any warning the existence loop produces names a listed key/path whose
path is missing. -/
theorem checkPaths_some_mem (fs : String → Bool)
    (l : List (String × String)) (w : LogWarning)
    (h : checkPaths fs l = some w) :
    ∃ k v, w = LogWarning.missingPath k v ∧ (k, v) ∈ l ∧ fs v = false := by
  induction l with
  | nil => simp [checkPaths] at h
  | cons kv rest ih =>
    obtain ⟨k, v⟩ := kv
    by_cases hv : fs v = true
    · rw [show checkPaths fs ((k, v) :: rest) = checkPaths fs rest by
        simp [checkPaths, hv]] at h
      obtain ⟨k₂, v₂, hw, hm, hf⟩ := ih h
      exact ⟨k₂, v₂, hw, List.mem_cons_of_mem _ hm, hf⟩
    · rw [show checkPaths fs ((k, v) :: rest) =
          some (LogWarning.missingPath k v) by simp [checkPaths, hv]] at h
      obtain rfl := (Option.some_inj.mp h).symm
      exact ⟨k, v, rfl, List.mem_cons_self _ _, Bool.not_eq_true _ ▸ hv⟩

/-- Claim C8: every located config's `post_args` contains the C++14 and
position-independent-code flags and never `/MD` off Windows, and contains
`/MD`, the C++14 flag and the OpenMP flag and never `-fPIC` on Windows. -/
theorem platform_flags (p : String) (env : Env) (fs : String → Bool)
    (hp : Bool) (c : CudaConfig)
    (h : (locate_cuda p env fs hp).1 = some c) :
    (p ≠ "win32" →
      "\x27-std=c++14\x27" ∈ c.post_args ∧
      "\x27-fPIC\x27" ∈ c.post_args ∧
      "/MD" ∉ c.post_args)
    ∧ (p = "win32" →
      "/MD" ∈ c.post_args ∧
      "/openmp" ∈ c.post_args ∧
      "-std=c++14" ∈ c.post_args ∧
      "-fPIC" ∉ c.post_args ∧
      "\x27-fPIC\x27" ∉ c.post_args) := by
  obtain ⟨home, nvcc, hfh, rfl, -⟩ := locate_some_mk p env fs hp c h
  simp only [mkConfig]
  constructor
  · intro hw
    cases hp <;> (unfold build_post_args; rw [if_neg hw]; decide)
  · intro hw
    subst hw
    cases hp <;> decide

/-- Witness for `platform_flags` at both concrete profiles. -/
theorem platform_flags_witness :
    ("\x27-std=c++14\x27" ∈ cfg0.post_args ∧
     "\x27-fPIC\x27" ∈ cfg0.post_args ∧
     "/MD" ∉ cfg0.post_args)
    ∧ ("/MD" ∈ cfgW.post_args ∧
       "/openmp" ∈ cfgW.post_args ∧
       "-std=c++14" ∈ cfgW.post_args ∧
       "-fPIC" ∉ cfgW.post_args ∧
       "\x27-fPIC\x27" ∉ cfgW.post_args) :=
  ⟨(platform_flags "linux" env0 fs0 false cfg0 rfl).1 (by decide),
   (platform_flags "win32" envW fsW false cfgW rfl).2 rfl⟩

/-- Claim C5: a config is returned only when all four paths exist on the
filesystem, and a located home with a missing include directory yields
Not Found together with a warning naming a missing key/path. -/
theorem locator_requires_all_paths (p : String) (env : Env)
    (fs : String → Bool) (hp : Bool) :
    (∀ c, (locate_cuda p env fs hp).1 = some c →
      fs c.home = true ∧ fs c.nvcc = true ∧
      fs c.includeDir = true ∧ fs c.lib64 = true)
    ∧ (∀ home nvcc, findHome p env fs = some (home, nvcc) →
      fs (mkConfig p home nvcc hp).includeDir = false →
      (locate_cuda p env fs hp).1 = none ∧
      ∃ k v, (locate_cuda p env fs hp).2 = [LogWarning.missingPath k v] ∧
        fs v = false ∧ (k, v) ∈ configPaths (mkConfig p home nvcc hp)) := by
  constructor
  · intro c hc
    obtain ⟨home, nvcc, hfh, hcfg, hchk⟩ := locate_some_mk p env fs hp c hc
    rw [checkPaths_none_iff] at hchk
    exact ⟨hchk ("home", c.home) (by simp [configPaths]),
           hchk ("nvcc", c.nvcc) (by simp [configPaths]),
           hchk ("include", c.includeDir) (by simp [configPaths]),
           hchk ("lib64", c.lib64) (by simp [configPaths])⟩
  · intro home nvcc hfh hmiss
    have hne : checkPaths fs (configPaths (mkConfig p home nvcc hp)) ≠ none := by
      intro hnone
      rw [checkPaths_none_iff] at hnone
      have := hnone ("include", (mkConfig p home nvcc hp).includeDir)
        (by simp [configPaths])
      simp only at this
      rw [this] at hmiss
      exact Bool.true_eq_false ▸ hmiss
    cases hw : checkPaths fs (configPaths (mkConfig p home nvcc hp)) with
    | none => exact absurd hw hne
    | some w =>
      obtain ⟨k, v, rfl, hm, hf⟩ :=
        checkPaths_some_mem fs (configPaths (mkConfig p home nvcc hp)) w hw
      have hloc : locate_cuda p env fs hp =
          (none, [LogWarning.missingPath k v]) := by
        unfold locate_cuda
        rw [hfh]
        simp only
        rw [hw]
      rw [hloc]
      exact ⟨rfl, k, v, rfl, hf, hm⟩

/-- Witness for `locator_requires_all_paths`: the all-paths-exist direction
at the located `cfg0`, and the missing-include direction at a filesystem
lacking only `/usr/local/cuda/include`. -/
theorem locator_requires_all_paths_witness :
    (fs0 cfg0.home = true ∧ fs0 cfg0.nvcc = true ∧
     fs0 cfg0.includeDir = true ∧ fs0 cfg0.lib64 = true) ∧
    (locate_cuda "linux" env0 fsNoInclude false).1 = none :=
  ⟨(locator_requires_all_paths "linux" env0 fs0 false).1 cfg0 rfl,
   ((locator_requires_all_paths "linux" env0 fsNoInclude false).2
      "/usr/local/cuda" "/usr/local/cuda/bin/nvcc" rfl rfl).1⟩

/-- The `PATH` loop of `find_in_path` returns, among the joined candidate
paths in directory order, the first one existing on the filesystem (made
absolute). -/
theorem find_in_path_go_eq (name : String) (fs : String → Bool)
    (l : List String) :
    find_in_path_go name fs l =
      ((l.map (fun d => pathJoin d name)).find? fs).map abspath := by
  induction l with
  | nil => rfl
  | cons d rest ih =>
    by_cases hd : fs (pathJoin d name) = true
    · simp [find_in_path_go, hd, List.find?_cons_of_pos, abspath]
    · rw [show find_in_path_go name fs (d :: rest) =
          find_in_path_go name fs rest by
        simp [find_in_path_go, hd]]
      rw [ih]
      simp only [List.map_cons]
      rw [List.find?_cons_of_neg _ (by simp [hd])]

/-- Claim C4: the locator checks `CUDA_PATH`, then `CUDAHOME`, then
`CUDA_HOME`; the first one present alone determines the toolkit root; only
when all three are absent does it search each `PATH` directory for the
nvcc binary, taking the first match (grandparent directory as home), and
when that also fails it returns Not Found with the single nvcc warning. -/
theorem locator_env_priority (p : String) (env : Env) (fs : String → Bool)
    (hp : Bool) :
    (∀ v, env.get? "CUDA_PATH" = some v →
      findHome p env fs = some (v, pathJoin (pathJoin v "bin") (nvccBinName p)))
    ∧ (env.get? "CUDA_PATH" = none → ∀ v, env.get? "CUDAHOME" = some v →
      findHome p env fs = some (v, pathJoin (pathJoin v "bin") (nvccBinName p)))
    ∧ (env.get? "CUDA_PATH" = none → env.get? "CUDAHOME" = none →
      ∀ v, env.get? "CUDA_HOME" = some v →
      findHome p env fs = some (v, pathJoin (pathJoin v "bin") (nvccBinName p)))
    ∧ (env.get? "CUDA_PATH" = none → env.get? "CUDAHOME" = none →
      env.get? "CUDA_HOME" = none →
      findHome p env fs =
        (find_in_path (nvccBinName p) ((env.get? "PATH").getD "") fs).map
          (fun nvcc => (dirname (dirname nvcc), nvcc)) ∧
      (find_in_path (nvccBinName p) ((env.get? "PATH").getD "") fs = none →
        locate_cuda p env fs hp = (none, [LogWarning.nvccNotInPath])))
    ∧ (∀ name path, find_in_path name path fs =
        (((splitPath path).map (fun d => pathJoin d name)).find? fs).map
          abspath) := by
  refine ⟨?_, ?_, ?_, ?_, ?_⟩
  · intro v hv
    simp [findHome, List.findSome?, hv]
  · intro h1 v hv
    simp [findHome, List.findSome?, h1, hv]
  · intro h1 h2 v hv
    simp [findHome, List.findSome?, h1, h2, hv]
  · intro h1 h2 h3
    constructor
    · cases hfind : find_in_path (nvccBinName p) ((env.get? "PATH").getD "") fs with
      | none => simp [findHome, List.findSome?, h1, h2, h3, hfind]
      | some nvcc => simp [findHome, List.findSome?, h1, h2, h3, hfind]
    · intro hfind
      have hfh : findHome p env fs = none := by
        simp [findHome, List.findSome?, h1, h2, h3, hfind]
      unfold locate_cuda
      rw [hfh]
  · intro name path
    exact find_in_path_go_eq name fs (splitPath path)

/-- Witness for `locator_env_priority`: the `CUDA_PATH` branch on `env0`
(the filesystem is irrelevant there) and the warn-and-return-None branch
on an environment with no CUDA variables and an empty filesystem. -/
theorem locator_env_priority_witness :
    findHome "linux" env0 (fun _ => false) =
      some ("/usr/local/cuda", "/usr/local/cuda/bin/nvcc") ∧
    locate_cuda "linux" envNoCuda (fun _ => false) false =
      (none, [LogWarning.nvccNotInPath]) :=
  ⟨(locator_env_priority "linux" env0 (fun _ => false) false).1
      "/usr/local/cuda" rfl,
   (((locator_env_priority "linux" envNoCuda (fun _ => false) false).2.2.2.1
      rfl rfl rfl).2 rfl)⟩

/-- Claim C1: for a `.cu` source the Unix dispatcher delegates exactly once
to the parent compile with the driver executable swapped to the located
`nvcc` and the caller's extra arguments replaced by the toolkit's
`post_args`, returns the parent's result (normal or raised), and the
driver's `compiler_so` equals its original value after the call on every
exit path; for a non-`.cu` source it delegates to the parent unchanged. -/
theorem unix_dispatch_frame (cuda : CudaConfig)
    (parent : UnixState → UnixCompileArgs → Except String Unit × UnixState)
    (st : UnixState) (a : UnixCompileArgs) :
    (splitextExt a.src = ".cu" →
      (unix_compile cuda parent st a).2 =
        [({ compiler_so := cuda.nvcc },
          { a with extra_postargs := cuda.post_args })] ∧
      ((unix_compile cuda parent st a).1.2).compiler_so = st.compiler_so ∧
      (unix_compile cuda parent st a).1.1 =
        (parent { compiler_so := cuda.nvcc }
          { a with extra_postargs := cuda.post_args }).1)
    ∧ (splitextExt a.src ≠ ".cu" →
      (unix_compile cuda parent st a).1 = parent st a ∧
      (unix_compile cuda parent st a).2 = [(st, a)]) := by
  by_cases h : splitextExt a.src = ".cu"
  · have hb : (splitextExt a.src == ".cu") = true := beq_iff_eq.mpr h
    refine ⟨fun _ => ?_, fun hn => absurd h hn⟩
    unfold unix_compile
    rw [if_pos hb]
    exact ⟨rfl, rfl, rfl⟩
  · have hb : (splitextExt a.src == ".cu") = false := by
      simpa using h
    refine ⟨fun hc => absurd hc h, fun _ => ?_⟩
    unfold unix_compile
    rw [if_neg (by simp [hb])]
    exact ⟨rfl, rfl⟩

/-- A parent compile that always raises (models a spawn failure inside the
parent `UnixCCompiler._compile`). -/
def parentFail : UnixState → UnixCompileArgs → Except String Unit × UnixState :=
  fun st _ => (Except.error "spawn failed", st)

/-- A concrete `.cu` single-file compile request. -/
def args0 : UnixCompileArgs :=
  { obj := "kernel.o", src := "kernel.cu", ext := ".cu",
    cc_args := ["-I/usr/local/cuda/include"], extra_postargs := ["-O0"],
    pp_opts := [] }

/-- The driver state before the dispatch: the system C compiler. -/
def st0 : UnixState := { compiler_so := "cc" }

/-- Witness for `unix_dispatch_frame`: on the exceptional exit path
(`parentFail` raises) the executable is still restored and the error is
propagated. -/
theorem unix_dispatch_frame_witness :
    ((unix_compile cfg0 parentFail st0 args0).1.2).compiler_so = "cc" ∧
    (unix_compile cfg0 parentFail st0 args0).1.1 =
      Except.error "spawn failed" := by
  have h := (unix_dispatch_frame cfg0 parentFail st0 args0).1 (by decide)
  exact ⟨h.2.1, by rw [h.2.2]; rfl⟩

/-- Inside the `.cu` loop, the first spawn failure (after successful spawns
for the earlier objects) aborts the loop with that failure's message. -/
theorem compile_cu_go_error (nvcc : String) (cc post : List String)
    (spawn : List String → Except String Unit)
    (build : String → Option String) (obj src e : String)
    (rest : List String) :
    ∀ pre : List String,
    build obj = some src →
    (∀ o ∈ pre, ∀ s, build o = some s →
      spawn (cuCommand nvcc cc s o post) = Except.ok ()) →
    spawn (cuCommand nvcc cc src obj post) = Except.error e →
    (compile_cu_go nvcc cc post spawn build (pre ++ obj :: rest)).1 =
      Except.error { msg := e } := by
  intro pre
  induction pre with
  | nil =>
    intro hb hpre hfail
    simp [compile_cu_go, hb, hfail]
  | cons o pre ih =>
    intro hb hpre hfail
    have htail := ih hb
      (fun o₂ hm s hs => hpre o₂ (List.mem_cons_of_mem _ hm) s hs) hfail
    rw [List.cons_append]
    cases ho : build o with
    | none => simpa [compile_cu_go, ho] using htail
    | some s =>
      have hok := hpre o (List.mem_cons_self _ _) s ho
      simpa [compile_cu_go, ho, hok] using htail

/-- Claim C6: in the Windows-variant `.cu` loop, a spawn failure
(`DistutilsExecError`) on any object whose earlier objects all spawned
successfully is re-raised as a `CompileError` carrying the underlying
description — regardless of the remaining objects (no retry, no skip) —
so the object list is never returned for that invocation. -/
theorem msvc_spawn_failure_is_compile_error (nvcc : String)
    (cc post : List String) (spawn : List String → Except String Unit)
    (build : String → Option String) (pre rest : List String)
    (obj src e : String)
    (hb : build obj = some src)
    (hpre : ∀ o ∈ pre, ∀ s, build o = some s →
      spawn (cuCommand nvcc cc s o post) = Except.ok ())
    (hfail : spawn (cuCommand nvcc cc src obj post) = Except.error e) :
    (compile_cu nvcc cc post spawn build (pre ++ obj :: rest)).1 =
      Except.error { msg := e } := by
  have hgo := compile_cu_go_error nvcc cc post spawn build obj src e rest
    pre hb hpre hfail
  unfold compile_cu
  cases hev : compile_cu_go nvcc cc post spawn build (pre ++ obj :: rest) with
  | mk r tr =>
    rw [hev] at hgo
    simp only at hgo
    subst hgo
    rfl

/-- A build map with `kernel.o` compiled from `kernel.cu`. -/
def buildMap0 : String → Option String :=
  fun o => if o = "kernel.o" then some "kernel.cu" else none

/-- A spawn that always fails (models a missing or broken `nvcc`). -/
def spawnFail : List String → Except String Unit :=
  fun _ => Except.error "nvcc: spawn failed"

/-- Witness for `msvc_spawn_failure_is_compile_error` at a concrete
one-object invocation. -/
theorem msvc_spawn_failure_witness :
    (compile_cu "nvcc" [] [] spawnFail buildMap0 ["kernel.o"]).1 =
      Except.error { msg := "nvcc: spawn failed" } :=
  msvc_spawn_failure_is_compile_error "nvcc" [] [] spawnFail buildMap0
    [] [] "kernel.o" "kernel.cu" "nvcc: spawn failed" rfl
    (fun o ho => absurd ho (List.not_mem_nil o)) rfl

/-- The partition loop equals the two extension filters, each in input
order. -/
theorem partition_cu_eq (sources : List String) :
    partition_cu sources =
      (sources.filter (fun s => splitextExt s == ".cu"),
       sources.filter (fun s => !(splitextExt s == ".cu"))) := by
  induction sources with
  | nil => rfl
  | cons s rest ih =>
    by_cases h : (splitextExt s == ".cu") = true <;>
      simp [partition_cu, List.filter_cons, h, ih]

/-- A successful `_compile_cu` returns exactly the `objects` list
`_setup_compile` produced. -/
theorem compile_cu_ok_eq (nvcc : String) (cc post : List String)
    (spawn : List String → Except String Unit)
    (build : String → Option String) (objects l : List String)
    (tr : List SpawnCall)
    (h : compile_cu nvcc cc post spawn build objects = (Except.ok l, tr)) :
    l = objects := by
  unfold compile_cu at h
  split at h
  · simp at h
  · simp at h
    exact h.1.symm

/-- Claim C7: the Windows batch compile partitions the sources up front by
the `.cu` extension, and every successful result is the parent driver's
objects for the non-`.cu` subset followed by the nvcc objects for the
`.cu` subset, with total length equal to the number of sources (given the
distutils contracts that the parent compile and `_setup_compile` produce
one object per source). -/
theorem msvc_batch_compile_concat (parent : List String → List String)
    (setup : List String → List String × (String → Option String))
    (nvcc : String) (cc post : List String)
    (spawn : List String → Except String Unit) (sources : List String)
    (hparent : ∀ srcs, (parent srcs).length = srcs.length)
    (hsetup : ∀ srcs, ((setup srcs).1).length = srcs.length) :
    partition_cu sources =
      (sources.filter (fun s => splitextExt s == ".cu"),
       sources.filter (fun s => !(splitextExt s == ".cu"))) ∧
    ∀ objs tr,
      msvc_compile parent setup nvcc cc post spawn sources =
        (Except.ok objs, tr) →
      objs = parent (sources.filter (fun s => !(splitextExt s == ".cu")))
          ++ (setup (sources.filter (fun s => splitextExt s == ".cu"))).1 ∧
      objs.length = sources.length := by
  refine ⟨partition_cu_eq sources, ?_⟩
  intro objs tr h
  simp only [msvc_compile] at h
  split at h
  · simp at h
  · rename_i cu_objects tr₂ hcc
    rw [Prod.mk.injEq] at h
    obtain ⟨h1, -⟩ := h
    have hcu := compile_cu_ok_eq nvcc cc post spawn
      (setup (partition_cu sources).1).2 (setup (partition_cu sources).1).1
      cu_objects tr₂ hcc
    subst hcu
    injection h1 with h1
    subst h1
    rw [partition_cu_eq sources]
    refine ⟨rfl, ?_⟩
    rw [List.length_append, hparent, hsetup, Nat.add_comm]
    exact (List.length_eq_length_filter_add
      (fun s => splitextExt s == ".cu")).symm

/-- A parent batch compile producing one `<src>.o` object per source. -/
def parent0 : List String → List String :=
  fun srcs => srcs.map (fun s => s ++ ".o")

/-- A `_setup_compile` model producing one `<src>.o` object per source and
the corresponding `_build` map. -/
def setup0 : List String → List String × (String → Option String) :=
  fun srcs =>
    (srcs.map (fun s => s ++ ".o"), fun o => srcs.find? (fun s => s ++ ".o" == o))

/-- A spawn that always succeeds. -/
def spawnOk : List String → Except String Unit := fun _ => Except.ok ()

/-- A mixed batch of `.cu` and non-`.cu` sources. -/
def sources0 : List String := ["a.cpp", "b.cu", "c.c"]

/-- Witness for `msvc_batch_compile_concat` on the mixed batch `sources0`:
the returned objects are the parent's objects for `a.cpp`/`c.c` followed
by the nvcc object for `b.cu`, three objects for three sources. -/
theorem msvc_batch_compile_concat_witness :
    (["a.cpp.o", "c.c.o", "b.cu.o"] : List String) =
      parent0 (sources0.filter (fun s => !(splitextExt s == ".cu")))
        ++ (setup0 (sources0.filter (fun s => splitextExt s == ".cu"))).1 ∧
    (["a.cpp.o", "c.c.o", "b.cu.o"] : List String).length = sources0.length :=
  (msvc_batch_compile_concat parent0 setup0 "nvcc" [] [] spawnOk sources0
      (fun srcs => by simp [parent0])
      (fun srcs => by simp [setup0])).2
    ["a.cpp.o", "c.c.o", "b.cu.o"]
    [{ cmd := ["nvcc", "b.cu", "-o", "b.cu.o"], src := "b.cu", obj := "b.cu.o" }]
    rfl

/-- The `.cu` loop's trace and `_compile_cu`'s trace coincide. -/
theorem compile_cu_trace_eq (nvcc : String) (cc post : List String)
    (spawn : List String → Except String Unit)
    (build : String → Option String) (objects : List String) :
    (compile_cu nvcc cc post spawn build objects).2 =
      (compile_cu_go nvcc cc post spawn build objects).2 := by
  unfold compile_cu
  split
  · rename_i tr heq
    rw [heq]
  · rename_i tr heq
    rw [heq]

/-- Every spawn the `.cu` loop records is for an object present in the
`_build` map, compiled from its mapped source. -/
theorem compile_cu_go_trace_sound (nvcc : String) (cc post : List String)
    (spawn : List String → Except String Unit)
    (build : String → Option String) :
    ∀ objects, ∀ call ∈ (compile_cu_go nvcc cc post spawn build objects).2,
      build call.obj = some call.src := by
  intro objects
  induction objects with
  | nil => intro call hc; simp [compile_cu_go] at hc
  | cons obj rest ih =>
    intro call hc
    unfold compile_cu_go at hc
    split at hc
    · exact ih call hc
    · rename_i src hsrc
      split at hc
      · simp at hc
        subst hc
        exact hsrc
      · simp at hc
        cases hc with
        | inl h => subst h; exact hsrc
        | inr h => exact ih call h

/-- Objects all missing from the `_build` map produce no spawn and no
error. -/
theorem compile_cu_go_all_skip (nvcc : String) (cc post : List String)
    (spawn : List String → Except String Unit)
    (build : String → Option String) (objects : List String)
    (h : ∀ o ∈ objects, build o = none) :
    compile_cu_go nvcc cc post spawn build objects = (Except.ok (), []) := by
  induction objects with
  | nil => rfl
  | cons obj rest ih =>
    have ho := h obj (List.mem_cons_self _ _)
    have htail := ih (fun o hm => h o (List.mem_cons_of_mem _ hm))
    simp [compile_cu_go, ho, htail]

/-- Claim C9: an object with no `_build` entry is silently skipped — the
loop spawns nothing for it and raises nothing on its account — yet every
successful return includes it, since the whole `objects` list is
returned; in particular with every entry missing the call returns the
full object list with an empty spawn trace. -/
theorem msvc_missing_build_entry_skipped (nvcc : String)
    (cc post : List String) (spawn : List String → Except String Unit)
    (build : String → Option String) (objects : List String) (obj : String)
    (h : build obj = none) :
    (∀ call ∈ (compile_cu nvcc cc post spawn build objects).2,
      call.obj ≠ obj)
    ∧ (obj ∈ objects → ∀ l tr,
      compile_cu nvcc cc post spawn build objects = (Except.ok l, tr) →
      obj ∈ l)
    ∧ ((∀ o ∈ objects, build o = none) →
      compile_cu nvcc cc post spawn build objects =
        (Except.ok objects, [])) := by
  refine ⟨?_, ?_, ?_⟩
  · intro call hc heq
    rw [compile_cu_trace_eq] at hc
    have := compile_cu_go_trace_sound nvcc cc post spawn build objects call hc
    rw [heq, h] at this
    exact Option.noConfusion this
  · intro hm l tr hok
    rw [compile_cu_ok_eq nvcc cc post spawn build objects l tr hok]
    exact hm
  · intro hall
    unfold compile_cu
    rw [compile_cu_go_all_skip nvcc cc post spawn build objects hall]

/-- A `_build` map holding only `b.o ← b.cu`. -/
def buildSkip : String → Option String :=
  fun o => if o = "b.o" then some "b.cu" else none

/-- Witness for `msvc_missing_build_entry_skipped`: the unmapped `a.o` is
in the successful result, and with an empty map the call returns all
objects with no spawns. -/
theorem msvc_missing_build_entry_skipped_witness :
    "a.o" ∈ (["a.o", "b.o"] : List String) ∧
    compile_cu "nvcc" [] [] spawnOk (fun _ => none) ["a.o", "b.o"] =
      (Except.ok ["a.o", "b.o"], []) :=
  ⟨(msvc_missing_build_entry_skipped "nvcc" [] [] spawnOk buildSkip
      ["a.o", "b.o"] "a.o" rfl).2.1 (by decide) ["a.o", "b.o"]
      [{ cmd := ["nvcc", "b.cu", "-o", "b.o"], src := "b.cu", obj := "b.o" }]
      rfl,
   (msvc_missing_build_entry_skipped "nvcc" [] [] spawnOk (fun _ => none)
      ["a.o", "b.o"] "a.o" rfl).2.2 (fun o _ => rfl)⟩

end CudaSetup
